import Mathlib

/-!
Verification of the recurring-job scheduling and dispatch subsystem of the
threatwatch repository (FastAPI + Celery + Supabase + Redis).

Shallow embedding of:
 * `src/utils/schedule_utils.py` — `calculate_next_run_at` (cadence catch-up loop);
 * `src/celery_tasks.py` — `scan_due_monitors` (due-monitor sweep), `scan_monitor_task`
   (scan pipeline), `_calculate_score` and the ranking sort;
 * `src/utils/rate_limit.py` — `RateLimiter.__call__` (fixed-window limiter);
 * the Python keyword-argument binding discipline relevant to `src/main.py`
   call sites (`RateLimiter(requests=...)`, `scan_monitor_task.delay(..., monitor_data=...)`).

Instants are modelled as UTC calendar datetimes with one-second resolution
(the Python code normalises every input to an aware UTC `datetime` before any
arithmetic; sub-second resolution plays no role in any property below).
-/

/-! ## UTC datetimes (the domain of `calculate_next_run_at`) -/

/-- A UTC calendar datetime: year, month, day and second-of-day.
Mirrors an aware-UTC Python `datetime` at one-second granularity. -/
structure DT where
  year : Nat
  month : Nat
  day : Nat
  tod : Nat

deriving DecidableEq, Repr

/-- Gregorian leap-year test (as used by Python's `calendar`/`datetime`). -/
def isLeap (y : Nat) : Bool :=
  (y % 4 == 0 && y % 100 != 0) || y % 400 == 0

/-- Number of days in a month of a given year. -/
def daysInMonth (y m : Nat) : Nat :=
  if m = 2 then (if isLeap y then 29 else 28)
  else if m = 4 ∨ m = 6 ∨ m = 9 ∨ m = 11 then 30
  else 31

/-- A `DT` that denotes a real calendar datetime (what Python's `datetime`
constructor enforces). -/
def DTValid (x : DT) : Prop :=
  1 ≤ x.month ∧ x.month ≤ 12 ∧ 1 ≤ x.day ∧ x.day ≤ daysInMonth x.year x.month ∧
    x.tod < 86400

instance (x : DT) : Decidable (DTValid x) := by
  unfold DTValid; exact inferInstance

/-- Python `datetime` comparison `a <= b`: lexicographic on the fields. -/
def DT.le (a b : DT) : Bool :=
  if a.year < b.year then true else if b.year < a.year then false
  else if a.month < b.month then true else if b.month < a.month then false
  else if a.day < b.day then true else if b.day < a.day then false
  else a.tod ≤ b.tod

/-- Python `datetime` comparison `a < b`: lexicographic on the fields. -/
def DT.lt (a b : DT) : Bool :=
  if a.year < b.year then true else if b.year < a.year then false
  else if a.month < b.month then true else if b.month < a.month then false
  else if a.day < b.day then true else if b.day < a.day then false
  else a.tod < b.tod

/-- Order-embedding of valid datetimes into `Nat` (month < 13, day < 32,
second-of-day < 86400). Used only as a proof device. -/
def enc (x : DT) : Nat :=
  ((x.year * 13 + x.month) * 32 + x.day) * 86400 + x.tod

/-! ## Cadence steps (`relativedelta(days=1)`, `(weeks=1)`, `(months=1)`) -/

/-- Advance a datetime by one calendar day (rolling month and year). -/
def nextDay (x : DT) : DT :=
  if x.day < daysInMonth x.year x.month then ⟨x.year, x.month, x.day + 1, x.tod⟩
  else if x.month < 12 then ⟨x.year, x.month + 1, 1, x.tod⟩
  else ⟨x.year + 1, 1, 1, x.tod⟩

/-- The step `dt + relativedelta(days=n)`: add `n` calendar days. -/
def addDays : Nat → DT → DT
  | 0, x => x
  | n + 1, x => addDays n (nextDay x)

/-- The step `dt + relativedelta(months=1)`: increment the month (rolling the year) and
clamp the day-of-month to the target month's length (end-of-month truncation,
exactly dateutil's behavior). -/
def addMonth (x : DT) : DT :=
  if x.month < 12 then
    ⟨x.year, x.month + 1, min x.day (daysInMonth x.year (x.month + 1)), x.tod⟩
  else
    ⟨x.year + 1, 1, min x.day (daysInMonth (x.year + 1) 1), x.tod⟩

/-- A cadence step that advances strictly and preserves calendar validity. -/
def StepOK (step : DT → DT) : Prop :=
  ∀ x, DTValid x → DTValid (step x) ∧ enc x < enc (step x)

/-- The `k`-fold application of a cadence step: the schedule grid reachable from a
given instant by repeatedly adding the step. -/
def iterStep (step : DT → DT) : Nat → DT → DT
  | 0, x => x
  | k + 1, x => iterStep step k (step x)

/-! ## `calculate_next_run_at` (src/utils/schedule_utils.py)

The source's `while next_run <= now: next_run += delta` is embedded as a
structurally recursive loop over a fuel argument. `enc now + 1 - enc last` is a
strict upper bound on the number of iterations the guard can succeed (each
iteration strictly increases `enc`, by `StepOK`), so with that fuel the
function below is exactly the source's while loop: `catchupLoop_gt` proves the
fuel never runs out while the guard still holds, and `catchupLoop_unchanged`
proves the guard-false exit. -/

/-- The catch-up loop body: `while next_run <= now: next_run += delta`. -/
def catchupLoop (step : DT → DT) (now : DT) : Nat → DT → DT
  | 0, next => next
  | fuel + 1, next =>
    if DT.le next now then catchupLoop step now fuel (step next) else next

/-- Cadence dispatch of `calculate_next_run_at`: `daily` ↦ `relativedelta(days=1)`,
`weekly` ↦ `relativedelta(weeks=1)`, `monthly` ↦ `relativedelta(months=1)`,
anything else unsupported. -/
def stepOf? (frequency : String) : Option (DT → DT) :=
  if frequency = "daily" then some (addDays 1)
  else if frequency = "weekly" then some (addDays 7)
  else if frequency = "monthly" then some addMonth
  else none

/-- Source function `calculate_next_run_at(frequency, last_run_at)` with the ambient
`datetime.now()` passed explicitly. `Except.error` models the raised
`ValueError(f"Unsupported frequency: ...")`. Timezone normalisation is
implicit: every `DT` is already UTC. -/
def calculate_next_run_at (frequency : String) (last_run_at now : DT) :
    Except String DT :=
  match stepOf? frequency with
  | some delta => Except.ok (catchupLoop delta now (enc now + 1 - enc last_run_at) last_run_at)
  | none => Except.error ("Unsupported frequency: " ++ frequency)

/-! ## `scan_due_monitors` (src/celery_tasks.py)

The sweep is embedded as a fold over the due-monitor list that records its
externally visible effects (Celery `delay` enqueues and Supabase `update`
writes) and propagates exceptions exactly where the source has no handler:
around `scan_monitor_task.delay` and around the `update(...).execute()` call
there is no `try`, so a raised error aborts the whole task; only
`calculate_next_run_at` is inside a `try/except ValueError` that falls back to
the `'daily'` cadence. -/

deriving instance DecidableEq for Except

/-- A row of the `monitors` table as the sweep reads it
(`select("*")` returns every field; the loop uses `id`, `frequency`,
`next_run_at`). -/
structure MonitorRec where
  id : String
  user_id : String
  query_text : Option String
  frequency : Option String
  next_run_at : DT
  active : Bool

deriving DecidableEq

/-- Python `str.lower()` (characterwise, which is exact for ASCII data such
as the cadence names and the keyword vocabulary). -/
def lowerStr (s : String) : String := (s.toList.map Char.toLower).asString

/-- The cadence read `monitor.get("frequency", "daily").lower()`. -/
def freqOf (m : MonitorRec) : String := lowerStr (m.frequency.getD "daily")

/-- The reschedule computation of the sweep body:
`try: calculate_next_run_at(frequency, current_next_run)`
`except ValueError: calculate_next_run_at('daily', current_next_run)`.
The fallback call is `calculate_next_run_at "daily"` unfolded (it always
returns `ok`, see `calculate_daily_eq`). -/
def scan_reschedule (frequency : String) (current_next_run now : DT) : DT :=
  match calculate_next_run_at frequency current_next_run now with
  | Except.ok d => d
  | Except.error _ =>
      catchupLoop (addDays 1) now (enc now + 1 - enc current_next_run) current_next_run

/-- Externally visible effects of one sweep: a Celery enqueue
(`scan_monitor_task.delay(monitor_id)`) or a Supabase partial update
(`.update(payload).eq("id", monitor_id)`), with the update payload as an
explicit field-name/value list. -/
inductive SweepEff where
  | enqueue (monitor_id : String)
  | update (monitor_id : String) (payload : List (String × DT))

deriving DecidableEq

/-- Fault model for the two effectful calls of the sweep body: whether the
broker enqueue or the store update raises for a given monitor id. -/
structure SweepEnv where
  enqueueFails : String → Bool
  updateFails : String → Bool

/-- The per-monitor loop body of `scan_due_monitors`, sequentially over the
due list, threading the effect log; a raised error stops the loop (the
source has no handler around `delay` or `update`). Result: effect log and
either the raised error or the enqueued count. -/
def scan_due_monitors_go (env : SweepEnv) (now : DT) :
    List MonitorRec → Nat → List SweepEff → List SweepEff × Except String Nat
  | [], count_enqueued, effs => (effs, Except.ok count_enqueued)
  | m :: rest, count_enqueued, effs =>
    if env.enqueueFails m.id then (effs, Except.error "enqueue failed")
    else
      let effs1 := effs ++ [SweepEff.enqueue m.id]
      let next_date := scan_reschedule (freqOf m) m.next_run_at now
      if env.updateFails m.id then (effs1, Except.error "update failed")
      else
        scan_due_monitors_go env now rest (count_enqueued + 1)
          (effs1 ++ [SweepEff.update m.id [("next_run_at", next_date)]])

/-- Source task `scan_due_monitors`: select the due monitors
(`active = true AND next_run_at <= now`) and run the sweep loop over them. -/
def scan_due_monitors (env : SweepEnv) (now : DT) (table : List MonitorRec) :
    List SweepEff × Except String Nat :=
  scan_due_monitors_go env now
    (table.filter (fun m => m.active && DT.le m.next_run_at now)) 0 []

/-- The two effects the sweep body performs for one monitor when nothing
raises. -/
def monitorEffs (now : DT) (m : MonitorRec) : List SweepEff :=
  [SweepEff.enqueue m.id,
   SweepEff.update m.id [("next_run_at", scan_reschedule (freqOf m) m.next_run_at now)]]

/-! ## Scoring and ranking (src/celery_tasks.py, `_calculate_score` and step 3
of `scan_monitor_task`) -/

/-- A Google CSE result item as the scorer reads it (`item.get("title", "")`,
`item.get("snippet", "")`). -/
structure Item where
  title : String
  snippet : String

deriving DecidableEq

/-- The curated threat-vocabulary set of `_calculate_score`. -/
def keywords : List String :=
  ["attack", "breach", "malware", "ransomware", "vulnerability", "exploit"]

/-- Python's substring test `kw in text` on character lists. -/
def containsSub (kw : List Char) : List Char → Bool
  | [] => kw.isEmpty
  | c :: rest => kw.isPrefixOf (c :: rest) || containsSub kw rest

/-- The scanned text `(item.get("title","") + " " + item.get("snippet","")).lower()`. -/
def text_to_scan (item : Item) : List Char :=
  (lowerStr (item.title ++ " " ++ item.snippet)).toList

/-- Source function `_calculate_score`: `score = 0`; `for kw in keywords: if kw in text: score += 10`;
`score += 5`. (The recency part of the source is a comment-only placeholder
that adds nothing.) -/
def _calculate_score (item : Item) : Nat :=
  (keywords.foldl
    (fun score kw => if containsSub kw.toList (text_to_scan item) then score + 10 else score)
    0) + 5

/-- Number of (possibly overlapping) occurrences of `kw` in the text: the count
of positions where `kw` is a prefix of the remaining text. -/
def countOccurrences (kw : List Char) : List Char → Nat
  | [] => 0
  | c :: rest => (if kw.isPrefixOf (c :: rest) then 1 else 0) + countOccurrences kw rest

/-- Modelled from the spec's words, for comparison with `_calculate_score`
(never used to settle anything but the refinement mismatch): base score plus a
fixed increment for *each* case-insensitive substring match of a keyword,
"duplicate matches of the same keyword each add their increment independently
with no cap". -/
def spec_score (item : Item) : Nat :=
  5 + 10 * (keywords.map (fun kw => countOccurrences kw.toList (text_to_scan item))).sum

/-- Step 3 of `scan_monitor_task`: attach `item["score"] = _calculate_score(item)`
to each item in provider order, then `ranked_items.sort(key=lambda x: x["score"],
reverse=True)` — CPython's sort is stable, which `List.mergeSort` matches. -/
def rank_items (items : List Item) : List (Item × Nat) :=
  (items.map (fun it => (it, _calculate_score it))).mergeSort
    (fun a b => b.2 ≤ a.2)

/-! ## `scan_monitor_task` (src/celery_tasks.py) -/

/-- The first row of the `reports` insert response (`report_res.data[0]`);
`id` is `data[0].get("id")`, absent if the row carries no id. -/
structure ReportRow where
  id : Option String

deriving DecidableEq

/-- Oracle for every external interaction of one `scan_monitor_task`
invocation: configuration guards, the monitor lookup, the provider search,
the two inserts (with-item-count attempt and base fallback). `Except.error`
models a raised exception at that call. -/
structure ScanEnv where
  supabase_ok : Bool
  cse_ok : Bool
  monitor : Option MonitorRec
  search_items : Except String (List Item)
  pdf_url : Option String
  search_insert : Except String Unit
  report_insert_with_count : Except String (List ReportRow)
  report_insert_base : Except String (List ReportRow)

/-- What one invocation returns: Python `None` (all skip paths), the created
report's id (which is Python `None` when the row has no `id` key), or the
literal `"success_no_id"` fallback. -/
inductive ScanRet where
  | skipped
  | reportId (rid : Option String)
  | successNoId

deriving DecidableEq

/-- Source task `scan_monitor_task(monitor_id)`: returns the list of notification enqueues
(`send_report_email_task.delay(report_id)` payloads) and the outcome
(`Except.error` = the task raised, so Celery records a failure).
Mirrors src/celery_tasks.py lines 140-227: config guards return `None`;
missing monitor or missing/empty `query_text` return `None`; the search and
the `searches` insert propagate errors; the `reports` insert first tries the
payload with `item_count` and falls back to the base payload on error; a
nonempty insert response enqueues exactly one notification for
`data[0].get("id")` and returns that id. -/
def scan_monitor_task (env : ScanEnv) :
    List (Option String) × Except String ScanRet :=
  if !env.supabase_ok then ([], Except.ok ScanRet.skipped)
  else if !env.cse_ok then ([], Except.ok ScanRet.skipped)
  else
    match env.monitor with
    | none => ([], Except.ok ScanRet.skipped)
    | some monitor =>
      match monitor.query_text with
      | none => ([], Except.ok ScanRet.skipped)
      | some q =>
        if q = "" then ([], Except.ok ScanRet.skipped)
        else
          match env.search_items with
          | Except.error e => ([], Except.error e)
          | Except.ok items =>
            let _ranked := rank_items items
            match env.search_insert with
            | Except.error e => ([], Except.error e)
            | Except.ok _ =>
              let report_res :=
                match env.report_insert_with_count with
                | Except.ok rows => Except.ok rows
                | Except.error _ => env.report_insert_base
              match report_res with
              | Except.error e => ([], Except.error e)
              | Except.ok [] => ([], Except.ok ScanRet.successNoId)
              | Except.ok (row :: _) =>
                ([row.id], Except.ok (ScanRet.reportId row.id))

/-! ## `RateLimiter.__call__` (src/utils/rate_limit.py) -/

/-- The Redis counters visible to the limiter, as an association list
(first binding wins). Key expiry is not modelled; a window that was never
incremented simply has no binding. -/
structure RLStore where
  counters : List (String × Nat)

deriving DecidableEq

/-- Current value of a counter (0 when the key is absent). -/
def RLStore.get (st : RLStore) (key : String) : Nat :=
  (st.counters.lookup key).getD 0

/-- Redis `INCR key`: increment and return the new value. -/
def RLStore.incr (st : RLStore) (key : String) : RLStore × Nat :=
  let c := st.get key + 1
  (⟨(key, c) :: st.counters⟩, c)

/-- The window key built as rate_limit:client_ip:floor(t / window). -/
def window_key (client_ip : String) (t window : Nat) : String :=
  "rate_limit:" ++ client_ip ++ ":" ++ toString (t / window)

/-- Source method `RateLimiter.__call__`: `connected` is whether a Redis client exists after
the lazy reconnection attempt; `exec_ok` is whether the pipeline
(`incr` + `expire` + `execute`) succeeds. No client, or a pipeline error,
admits the request (fail-open). Otherwise the counter is incremented and the
request fails with HTTP 429 exactly when the post-increment count exceeds
`limit`. Result: the store afterwards, and `Except.error 429` for a raised
`HTTPException(429)`. -/
def RateLimiter_call (limit window : Nat) (connected exec_ok : Bool)
    (st : RLStore) (client_ip : String) (t : Nat) : RLStore × Except Nat Unit :=
  if !connected then (st, Except.ok ())
  else if !exec_ok then (st, Except.ok ())
  else
    let key := window_key client_ip t window
    let res := st.incr key
    if limit < res.2 then (res.1, Except.error 429) else (res.1, Except.ok ())

/-- Runs `n` back-to-back admission checks from the same caller at the same
instant (all in one window), keeping only the resulting store. -/
def run_checks (limit window : Nat) (client_ip : String) (t : Nat) :
    Nat → RLStore → RLStore
  | 0, st => st
  | n + 1, st => run_checks limit window client_ip t n
      (RateLimiter_call limit window true true st client_ip t).1

/-! ## Python call binding (src/main.py call sites) -/

/-- Whether a Python call with `npos` positional arguments and the given
keyword-argument names binds against a `def` whose (non-self) parameters are
`params` (no `*args`/`**kwargs`, as in the signatures involved): every keyword
name must be a declared parameter not already bound positionally, else the
call raises `TypeError`. -/
def bindsOk (params : List String) (npos : Nat) (kwargs : List String) : Bool :=
  npos ≤ params.length &&
    kwargs.all (fun k => (params.drop npos).contains k)

/-- Parameters of `def scan_monitor_task(self, monitor_id)` after Celery binds
`self` (src/celery_tasks.py:140). -/
def scan_monitor_task_params : List String := ["monitor_id"]

/-- Parameters of `RateLimiter.__init__(self, limit=10, window=60)` after
`self` (src/utils/rate_limit.py:17). -/
def RateLimiter_init_params : List String := ["limit", "window"]

/-- The keyword names used at each rate-limited endpoint's
`RateLimiter(requests=..., window=...)` dependency construction
(src/main.py:71, 117, 135, 166). -/
def rate_limiter_call_sites : List (String × List String) :=
  [("create_monitor", ["requests", "window"]),
   ("test_monitor", ["requests", "window"]),
   ("download_report", ["requests", "window"]),
   ("get_feed", ["requests", "window"])]

/-- Fixture: an active, due monitor with a clean broker/store. -/
def mA : MonitorRec := ⟨"mA", "u1", some "q", some "daily", ⟨2023, 1, 1, 0⟩, true⟩

/-- Fixture: an active, due monitor whose enqueue will raise. -/
def mB : MonitorRec := ⟨"mB", "u2", some "q", some "weekly", ⟨2023, 1, 1, 0⟩, true⟩

/-- Fixture: an active, due monitor with an unsupported cadence string. -/
def mC : MonitorRec := ⟨"mC", "u3", some "q", some "yearly", ⟨2023, 1, 1, 0⟩, true⟩

/-- Fixture: a broker/store fault model that raises only on `mB`'s enqueue. -/
def envC3 : SweepEnv := ⟨fun i => i == "mB", fun _ => false⟩

/-- Fixture: a fault-free broker/store. -/
def envOk : SweepEnv := ⟨fun _ => false, fun _ => false⟩

/-- Fixture: a broker/store fault model that raises only on `mB`'s update. -/
def envC3U : SweepEnv := ⟨fun _ => false, fun i => i == "mB"⟩

/-- Fixture: a result item matching two distinct keywords. -/
def itemHi : Item := ⟨"Ransomware attack", ""⟩

/-- Fixture: a result item matching no keyword. -/
def itemLo : Item := ⟨"flower show", ""⟩

/-- Fixture: a scan-task environment on the fully successful path. -/
def envScan : ScanEnv :=
  ⟨true, true, some mA, Except.ok [itemHi, itemLo], some "url", Except.ok (),
   Except.ok [⟨some "r1"⟩], Except.ok []⟩

theorem daysInMonth_le (y m : Nat) : daysInMonth y m ≤ 31 := by
  unfold daysInMonth; split_ifs <;> omega

theorem daysInMonth_pos (y m : Nat) : 1 ≤ daysInMonth y m := by
  unfold daysInMonth; split_ifs <;> omega

theorem le_iff_enc {a b : DT} (ha : DTValid a) (hb : DTValid b) :
    DT.le a b = true ↔ enc a ≤ enc b := by
  obtain ⟨ha1, ha2, ha3, ha4, ha5⟩ := ha
  obtain ⟨hb1, hb2, hb3, hb4, hb5⟩ := hb
  have hda := daysInMonth_le a.year a.month
  have hdb := daysInMonth_le b.year b.month
  unfold DT.le enc
  split_ifs <;> simp <;> omega

theorem lt_iff_enc {a b : DT} (ha : DTValid a) (hb : DTValid b) :
    DT.lt a b = true ↔ enc a < enc b := by
  obtain ⟨ha1, ha2, ha3, ha4, ha5⟩ := ha
  obtain ⟨hb1, hb2, hb3, hb4, hb5⟩ := hb
  have hda := daysInMonth_le a.year a.month
  have hdb := daysInMonth_le b.year b.month
  unfold DT.lt enc
  split_ifs <;> simp <;> omega

theorem lt_of_le_false {a b : DT} (ha : DTValid a) (hb : DTValid b)
    (h : DT.le a b = false) : DT.lt b a = true := by
  have h1 := le_iff_enc ha hb
  have h2 := lt_iff_enc hb ha
  have hnot : ¬ enc a ≤ enc b := fun hc => by
    rw [h1.mpr hc] at h; exact Bool.true_eq_false.mp h
  exact h2.mpr (by omega)

theorem le_false_of_lt {a b : DT} (ha : DTValid a) (hb : DTValid b)
    (h : DT.lt a b = true) : DT.le b a = false := by
  have h1 := lt_iff_enc ha hb
  have h2 := le_iff_enc hb ha
  have hlt : enc a < enc b := h1.mp h
  cases hx : DT.le b a with
  | false => rfl
  | true => exact absurd (h2.mp hx) (by omega)

theorem nextDay_sound {x : DT} (h : DTValid x) :
    DTValid (nextDay x) ∧ enc x < enc (nextDay x) := by
  obtain ⟨h1, h2, h3, h4, h5⟩ := h
  have d31 := daysInMonth_le x.year x.month
  have dp1 := daysInMonth_pos x.year (x.month + 1)
  have dp2 := daysInMonth_pos (x.year + 1) 1
  have dl1 := daysInMonth_le x.year (x.month + 1)
  have dl2 := daysInMonth_le (x.year + 1) 1
  unfold nextDay
  split_ifs with hd hm <;>
    exact ⟨⟨by simp <;> omega, by simp <;> omega, by simp <;> omega,
           by simp [DTValid] <;> omega, by simp <;> omega⟩, by simp [enc] <;> omega⟩

theorem addDays_sound (n : Nat) {x : DT} (h : DTValid x) :
    DTValid (addDays n x) ∧ enc x ≤ enc (addDays n x) := by
  induction n generalizing x with
  | zero => exact ⟨h, Nat.le_refl _⟩
  | succ n ih =>
    have hx := nextDay_sound h
    have h2 := ih hx.1
    simp only [addDays]
    exact ⟨h2.1, by have := hx.2; have := h2.2; omega⟩

theorem addDays_pos_sound {n : Nat} (hn : 1 ≤ n) {x : DT} (h : DTValid x) :
    DTValid (addDays n x) ∧ enc x < enc (addDays n x) := by
  cases n with
  | zero => omega
  | succ n =>
    have hx := nextDay_sound h
    have h2 := addDays_sound n hx.1
    simp only [addDays]
    exact ⟨h2.1, by have := hx.2; have := h2.2; omega⟩

theorem addMonth_sound {x : DT} (h : DTValid x) :
    DTValid (addMonth x) ∧ enc x < enc (addMonth x) := by
  obtain ⟨h1, h2, h3, h4, h5⟩ := h
  have d31 := daysInMonth_le x.year x.month
  have dp1 := daysInMonth_pos x.year (x.month + 1)
  have dp2 := daysInMonth_pos (x.year + 1) 1
  have dl1 := daysInMonth_le x.year (x.month + 1)
  have dl2 := daysInMonth_le (x.year + 1) 1
  unfold addMonth
  split_ifs with hm <;>
    exact ⟨⟨by simp <;> omega, by simp <;> omega, by simp <;> omega,
           by simp [DTValid] <;> omega, by simp <;> omega⟩, by simp [enc] <;> omega⟩

theorem stepOK_addDays {n : Nat} (hn : 1 ≤ n) : StepOK (addDays n) :=
  fun _ h => addDays_pos_sound hn h

theorem stepOK_addMonth : StepOK addMonth := fun _ h => addMonth_sound h

theorem iterStep_sound {step : DT → DT} (hs : StepOK step) (k : Nat) {x : DT}
    (h : DTValid x) : DTValid (iterStep step k x) ∧ enc x ≤ enc (iterStep step k x) := by
  induction k generalizing x with
  | zero => exact ⟨h, Nat.le_refl _⟩
  | succ k ih =>
    have hx := hs x h
    have := ih hx.1
    exact ⟨this.1, by have := hx.2; simp only [iterStep]; omega⟩

theorem catchupLoop_gt {step : DT → DT} (hs : StepOK step) {now : DT}
    (hnow : DTValid now) :
    ∀ fuel next, DTValid next → enc now < enc next + fuel →
      DTValid (catchupLoop step now fuel next) ∧
        DT.le (catchupLoop step now fuel next) now = false := by
  intro fuel
  induction fuel with
  | zero =>
    intro next hv hb
    refine ⟨hv, ?_⟩
    cases hg : DT.le next now with
    | false => simpa [catchupLoop] using hg
    | true => exact absurd ((le_iff_enc hv hnow).mp hg) (by omega)
  | succ n ih =>
    intro next hv hb
    cases hg : DT.le next now with
    | true =>
      have hlenow := (le_iff_enc hv hnow).mp hg
      have hst := hs next hv
      have := ih (step next) hst.1 (by omega)
      simpa [catchupLoop, hg] using this
    | false =>
      exact ⟨by simpa [catchupLoop, hg] using hv, by simpa [catchupLoop, hg] using hg⟩

theorem catchupLoop_reach (step : DT → DT) (now : DT) :
    ∀ fuel next, ∃ k, catchupLoop step now fuel next = iterStep step k next := by
  intro fuel
  induction fuel with
  | zero => exact fun next => ⟨0, rfl⟩
  | succ n ih =>
    intro next
    cases hg : DT.le next now with
    | true =>
      obtain ⟨k, hk⟩ := ih (step next)
      exact ⟨k + 1, by simpa [catchupLoop, hg] using hk⟩
    | false => exact ⟨0, by simp [catchupLoop, hg, iterStep]⟩

theorem catchupLoop_min {step : DT → DT} (hs : StepOK step) {now : DT} :
    ∀ fuel next, DTValid next →
      ∀ j, DT.le (iterStep step j next) now = false →
        enc (catchupLoop step now fuel next) ≤ enc (iterStep step j next) := by
  intro fuel
  induction fuel with
  | zero => exact fun next hv j _ => (iterStep_sound hs j hv).2
  | succ n ih =>
    intro next hv j hj
    cases hg : DT.le next now with
    | true =>
      cases j with
      | zero => rw [iterStep] at hj; rw [hj] at hg; exact absurd hg (by simp)
      | succ j =>
        have := ih (step next) (hs next hv).1 j (by simpa [iterStep] using hj)
        simpa [catchupLoop, hg, iterStep] using this
    | false =>
      have := (iterStep_sound hs j hv).2
      simpa [catchupLoop, hg] using this

theorem catchupLoop_unchanged (step : DT → DT) (now : DT) (fuel : Nat)
    (next : DT) (h : DT.le next now = false) :
    catchupLoop step now fuel next = next := by
  cases fuel with
  | zero => rfl
  | succ n => simp [catchupLoop, h]

theorem stepOf_ok {frequency : String}
    (hf : frequency = "daily" ∨ frequency = "weekly" ∨ frequency = "monthly") :
    ∃ step, stepOf? frequency = some step ∧ StepOK step := by
  rcases hf with h | h | h <;> subst h
  · exact ⟨addDays 1, rfl, stepOK_addDays (by omega)⟩
  · exact ⟨addDays 7, by simp [stepOf?], stepOK_addDays (by omega)⟩
  · exact ⟨addMonth, by simp [stepOf?], stepOK_addMonth⟩

theorem calculate_daily_eq (cur now : DT) :
    calculate_next_run_at "daily" cur now =
      Except.ok (catchupLoop (addDays 1) now (enc now + 1 - enc cur) cur) := rfl

theorem scan_reschedule_gt (frequency : String) {current_next_run now : DT}
    (hc : DTValid current_next_run) (hn : DTValid now) :
    DTValid (scan_reschedule frequency current_next_run now) ∧
      DT.lt now (scan_reschedule frequency current_next_run now) = true := by
  unfold scan_reschedule calculate_next_run_at
  have hb : enc now < enc current_next_run + (enc now + 1 - enc current_next_run) := by
    omega
  cases hstep : stepOf? frequency with
  | some step =>
    have hsok : StepOK step := by
      unfold stepOf? at hstep
      split_ifs at hstep <;> injection hstep with h <;> rw [← h]
      · exact stepOK_addDays (by omega)
      · exact stepOK_addDays (by omega)
      · exact stepOK_addMonth
    have := catchupLoop_gt hsok hn _ current_next_run hc hb
    exact ⟨this.1, lt_of_le_false this.1 hn this.2⟩
  | none =>
    have := catchupLoop_gt (stepOK_addDays (n := 1) (by omega)) hn _ current_next_run hc hb
    exact ⟨this.1, lt_of_le_false this.1 hn this.2⟩

theorem go_success (env : SweepEnv) (now : DT) :
    ∀ (ms : List MonitorRec) (count : Nat) (effs : List SweepEff),
      (∀ m ∈ ms, env.enqueueFails m.id = false ∧ env.updateFails m.id = false) →
      scan_due_monitors_go env now ms count effs =
        (effs ++ (ms.map (monitorEffs now)).flatten, Except.ok (count + ms.length)) := by
  intro ms
  induction ms with
  | nil => intro count effs _; simp [scan_due_monitors_go]
  | cons m rest ih =>
    intro count effs hok
    have hm := hok m (by simp)
    have hrest : ∀ m ∈ rest, env.enqueueFails m.id = false ∧ env.updateFails m.id = false :=
      fun x hx => hok x (by simp [hx])
    simp only [scan_due_monitors_go, hm.1, hm.2, Bool.false_eq_true, if_false]
    rw [ih (count + 1) _ hrest]
    simp [monitorEffs]
    omega

theorem go_effects_from (env : SweepEnv) (now : DT) :
    ∀ (ms : List MonitorRec) (count : Nat) (effs : List SweepEff) (e : SweepEff),
      e ∈ (scan_due_monitors_go env now ms count effs).1 →
      e ∈ effs ∨ ∃ m ∈ ms, e ∈ monitorEffs now m := by
  intro ms
  induction ms with
  | nil => intro count effs e he; exact Or.inl (by simpa [scan_due_monitors_go] using he)
  | cons m rest ih =>
    intro count effs e he
    by_cases h1 : env.enqueueFails m.id = true
    · simp only [scan_due_monitors_go, h1, if_true] at he
      exact Or.inl he
    · rw [Bool.not_eq_true] at h1
      by_cases h2 : env.updateFails m.id = true
      · simp only [scan_due_monitors_go, h1, h2, Bool.false_eq_true, if_false, if_true] at he
        rcases List.mem_append.mp he with h | h
        · exact Or.inl h
        · simp at h
          exact Or.inr ⟨m, by simp, by simp [monitorEffs, h]⟩
      · rw [Bool.not_eq_true] at h2
        simp only [scan_due_monitors_go, h1, h2, Bool.false_eq_true, if_false] at he
        rcases ih _ _ _ he with h | ⟨m2, hm2, he2⟩
        · rcases List.mem_append.mp h with h | h
          · rcases List.mem_append.mp h with h | h
            · exact Or.inl h
            · exact Or.inr ⟨m, by simp, by simp [monitorEffs]; simp at h; simp [h]⟩
          · exact Or.inr ⟨m, by simp, by simp [monitorEffs]; simp at h; simp [h]⟩
        · exact Or.inr ⟨m2, by simp [hm2], he2⟩

theorem go_abort_enqueue (env : SweepEnv) (now : DT) :
    ∀ (pre : List MonitorRec) (bad : MonitorRec) (post : List MonitorRec)
      (count : Nat) (effs : List SweepEff),
      (∀ m ∈ pre, env.enqueueFails m.id = false ∧ env.updateFails m.id = false) →
      env.enqueueFails bad.id = true →
      scan_due_monitors_go env now (pre ++ bad :: post) count effs =
        (effs ++ (pre.map (monitorEffs now)).flatten, Except.error "enqueue failed") := by
  intro pre
  induction pre with
  | nil =>
    intro bad post count effs _ hbad
    simp [scan_due_monitors_go, hbad]
  | cons m rest ih =>
    intro bad post count effs hok hbad
    have hm := hok m (by simp)
    have hrest : ∀ x ∈ rest, env.enqueueFails x.id = false ∧ env.updateFails x.id = false :=
      fun x hx => hok x (by simp [hx])
    simp only [List.cons_append, List.append_eq, scan_due_monitors_go, hm.1, hm.2,
      Bool.false_eq_true, if_false]
    rw [ih bad post _ _ hrest hbad]
    simp [monitorEffs]

theorem go_abort_update (env : SweepEnv) (now : DT) :
    ∀ (pre : List MonitorRec) (bad : MonitorRec) (post : List MonitorRec)
      (count : Nat) (effs : List SweepEff),
      (∀ m ∈ pre, env.enqueueFails m.id = false ∧ env.updateFails m.id = false) →
      env.enqueueFails bad.id = false →
      env.updateFails bad.id = true →
      scan_due_monitors_go env now (pre ++ bad :: post) count effs =
        (effs ++ (pre.map (monitorEffs now)).flatten ++ [SweepEff.enqueue bad.id],
         Except.error "update failed") := by
  intro pre
  induction pre with
  | nil =>
    intro bad post count effs _ hbe hbu
    simp [scan_due_monitors_go, hbe, hbu]
  | cons m rest ih =>
    intro bad post count effs hok hbe hbu
    have hm := hok m (by simp)
    have hrest : ∀ x ∈ rest, env.enqueueFails x.id = false ∧ env.updateFails x.id = false :=
      fun x hx => hok x (by simp [hx])
    simp only [List.cons_append, List.append_eq, scan_due_monitors_go, hm.1, hm.2,
      Bool.false_eq_true, if_false]
    rw [ih bad post _ _ hrest hbe hbu]
    simp [monitorEffs]

/-! ## Claims -/

/-- C1: for every cadence in {daily, weekly, monthly} and valid instants,
`calculate_next_run_at` succeeds with an instant strictly greater than now;
that instant is reachable from `last_run_at` by repeatedly adding the
cadence's step and is the smallest reachable instant strictly greater than
now (minimality); and a `last_run_at` already strictly in the future is
returned unchanged. -/
theorem claim_C1 (frequency : String) (last now : DT)
    (hf : frequency = "daily" ∨ frequency = "weekly" ∨ frequency = "monthly")
    (hl : DTValid last) (hn : DTValid now) :
    ∃ step r, stepOf? frequency = some step ∧
      calculate_next_run_at frequency last now = Except.ok r ∧
      DT.lt now r = true ∧
      (∃ k, r = iterStep step k last) ∧
      (∀ j, DT.lt now (iterStep step j last) = true →
        DT.le r (iterStep step j last) = true) ∧
      (DT.le last now = false → r = last) := by
  obtain ⟨step, hsome, hsok⟩ := stepOf_ok hf
  have hb : enc now < enc last + (enc now + 1 - enc last) := by omega
  have hgt := catchupLoop_gt hsok hn (enc now + 1 - enc last) last hl hb
  refine ⟨step, catchupLoop step now (enc now + 1 - enc last) last,
    hsome, by simp [calculate_next_run_at, hsome], lt_of_le_false hgt.1 hn hgt.2,
    catchupLoop_reach step now (enc now + 1 - enc last) last, ?_,
    catchupLoop_unchanged step now (enc now + 1 - enc last) last⟩
  intro j hj
  have hvj := (iterStep_sound hsok j hl).1
  have hle := le_false_of_lt hn hvj hj
  have hmin := catchupLoop_min hsok (enc now + 1 - enc last) last hl j hle
  exact (le_iff_enc hgt.1 hvj).mpr hmin

/-- Witness for C1 at cadence `daily`, `last_run_at` 2024-02-28 00:00:00Z
(leap February), now 2024-03-01 00:01:40Z. -/
theorem claim_C1_witness :
    ("daily" = "daily" ∨ "daily" = "weekly" ∨ "daily" = "monthly") ∧
    DTValid ⟨2024, 2, 28, 0⟩ ∧ DTValid ⟨2024, 3, 1, 100⟩ ∧
    (∃ step r, stepOf? "daily" = some step ∧
      calculate_next_run_at "daily" ⟨2024, 2, 28, 0⟩ ⟨2024, 3, 1, 100⟩ = Except.ok r ∧
      DT.lt ⟨2024, 3, 1, 100⟩ r = true ∧
      (∃ k, r = iterStep step k ⟨2024, 2, 28, 0⟩) ∧
      (∀ j, DT.lt ⟨2024, 3, 1, 100⟩ (iterStep step j ⟨2024, 2, 28, 0⟩) = true →
        DT.le r (iterStep step j ⟨2024, 2, 28, 0⟩) = true) ∧
      (DT.le ⟨2024, 2, 28, 0⟩ ⟨2024, 3, 1, 100⟩ = false → r = ⟨2024, 2, 28, 0⟩)) :=
  ⟨Or.inl rfl, by decide, by decide,
   claim_C1 "daily" ⟨2024, 2, 28, 0⟩ ⟨2024, 3, 1, 100⟩ (Or.inl rfl) (by decide) (by decide)⟩

/-- C2 counterexample: the due-monitor scanner's reschedule path *does*
substitute the default `daily` cadence for an unsupported one.
`calculate_next_run_at` itself raises, but `scan_due_monitors` catches the
`ValueError` (src/celery_tasks.py:271-273) and recomputes with `'daily'`:
for cadence "yearly" the reschedule yields the daily-advanced instant
2023-01-03 00:00:00Z instead of failing. -/
theorem claim_C2_counterexample :
    calculate_next_run_at "yearly" ⟨2023, 1, 1, 0⟩ ⟨2023, 1, 2, 500⟩ =
      Except.error "Unsupported frequency: yearly" ∧
    scan_reschedule "yearly" ⟨2023, 1, 1, 0⟩ ⟨2023, 1, 2, 500⟩ = ⟨2023, 1, 3, 0⟩ ∧
    calculate_next_run_at "daily" ⟨2023, 1, 1, 0⟩ ⟨2023, 1, 2, 500⟩ =
      Except.ok ⟨2023, 1, 3, 0⟩ := by decide

/-- C2 amended: `calculate_next_run_at` fails with the `Unsupported frequency`
error on every cadence outside {daily, weekly, monthly} and never defaults on
its own; but the scanner's reschedule path catches that error and recomputes
with the default `daily` cadence, so the monitor still gets a (daily)
schedule. -/
theorem claim_C2 (frequency : String) (last now : DT)
    (h1 : frequency ≠ "daily") (h2 : frequency ≠ "weekly") (h3 : frequency ≠ "monthly") :
    calculate_next_run_at frequency last now =
      Except.error ("Unsupported frequency: " ++ frequency) ∧
    scan_reschedule frequency last now =
      catchupLoop (addDays 1) now (enc now + 1 - enc last) last ∧
    calculate_next_run_at "daily" last now =
      Except.ok (catchupLoop (addDays 1) now (enc now + 1 - enc last) last) := by
  have hnone : stepOf? frequency = none := by simp [stepOf?, h1, h2, h3]
  refine ⟨by simp [calculate_next_run_at, hnone], ?_, rfl⟩
  unfold scan_reschedule
  simp [calculate_next_run_at, hnone]

/-- Witness for C2 at cadence "yearly". -/
theorem claim_C2_witness :
    ("yearly" ≠ "daily") ∧ ("yearly" ≠ "weekly") ∧ ("yearly" ≠ "monthly") ∧
    (calculate_next_run_at "yearly" ⟨2023, 5, 1, 0⟩ ⟨2023, 5, 3, 60⟩ =
        Except.error "Unsupported frequency: yearly" ∧
      scan_reschedule "yearly" ⟨2023, 5, 1, 0⟩ ⟨2023, 5, 3, 60⟩ =
        catchupLoop (addDays 1) ⟨2023, 5, 3, 60⟩
          (enc ⟨2023, 5, 3, 60⟩ + 1 - enc ⟨2023, 5, 1, 0⟩) ⟨2023, 5, 1, 0⟩ ∧
      calculate_next_run_at "daily" ⟨2023, 5, 1, 0⟩ ⟨2023, 5, 3, 60⟩ =
        Except.ok (catchupLoop (addDays 1) ⟨2023, 5, 3, 60⟩
          (enc ⟨2023, 5, 3, 60⟩ + 1 - enc ⟨2023, 5, 1, 0⟩) ⟨2023, 5, 1, 0⟩)) :=
  ⟨by decide, by decide, by decide,
   claim_C2 "yearly" ⟨2023, 5, 1, 0⟩ ⟨2023, 5, 3, 60⟩ (by decide) (by decide) (by decide)⟩

/-- C3 counterexample: with two active, due monitors and a broker that raises
on the first monitor's enqueue, the sweep produces no effects and aborts:
the second due monitor — whose effectful calls would all succeed — is never
enqueued nor rescheduled, contradicting the claimed failure isolation. -/
theorem claim_C3_counterexample :
    scan_due_monitors ⟨fun i => i == "m1", fun _ => false⟩ ⟨2023, 1, 2, 500⟩
      [⟨"m1", "u1", some "q", some "daily", ⟨2023, 1, 1, 0⟩, true⟩,
       ⟨"m2", "u2", some "q", some "daily", ⟨2023, 1, 1, 0⟩, true⟩] =
      ([], Except.error "enqueue failed") ∧
    DT.le (⟨2023, 1, 1, 0⟩ : DT) ⟨2023, 1, 2, 500⟩ = true ∧
    SweepEff.enqueue "m2" ∉
      (scan_due_monitors ⟨fun i => i == "m1", fun _ => false⟩ ⟨2023, 1, 2, 500⟩
        [⟨"m1", "u1", some "q", some "daily", ⟨2023, 1, 1, 0⟩, true⟩,
         ⟨"m2", "u2", some "q", some "daily", ⟨2023, 1, 1, 0⟩, true⟩]).1 := by decide

/-- C3 amended: an `UnsupportedCadence` error during the next-run computation
is caught per monitor (any cadence string still yields a reschedule, see the
no-failure conjunct), but a raised error from either effectful call aborts the
sweep: if the ScanJob enqueue of one monitor raises, the sweep stops with only
the earlier monitors' effects; if its reschedule update raises, the sweep
stops right after that monitor's enqueue; in both cases the monitors after the
failing one are not processed at all, while a sweep in which no enqueue or
update raises processes every due monitor. -/
theorem claim_C3 (env : SweepEnv) (now : DT) (pre : List MonitorRec)
    (bad : MonitorRec) (post : List MonitorRec)
    (hdue : ∀ m ∈ pre ++ bad :: post, m.active = true ∧ DT.le m.next_run_at now = true)
    (hpre : ∀ m ∈ pre, env.enqueueFails m.id = false ∧ env.updateFails m.id = false) :
    (env.enqueueFails bad.id = true →
      scan_due_monitors env now (pre ++ bad :: post) =
        ((pre.map (monitorEffs now)).flatten, Except.error "enqueue failed")) ∧
    (env.enqueueFails bad.id = false → env.updateFails bad.id = true →
      scan_due_monitors env now (pre ++ bad :: post) =
        ((pre.map (monitorEffs now)).flatten ++ [SweepEff.enqueue bad.id],
         Except.error "update failed")) ∧
    (∀ env2 : SweepEnv,
      (∀ m ∈ pre ++ bad :: post,
        env2.enqueueFails m.id = false ∧ env2.updateFails m.id = false) →
      scan_due_monitors env2 now (pre ++ bad :: post) =
        (((pre ++ bad :: post).map (monitorEffs now)).flatten,
         Except.ok (pre ++ bad :: post).length)) := by
  have hfil : (pre ++ bad :: post).filter
      (fun m => m.active && DT.le m.next_run_at now) = pre ++ bad :: post :=
    List.filter_eq_self.mpr (fun m hm => by simp [(hdue m hm).1, (hdue m hm).2])
  refine ⟨?_, ?_, ?_⟩
  · intro hbad
    unfold scan_due_monitors
    rw [hfil, go_abort_enqueue env now pre bad post 0 [] hpre hbad]
    simp
  · intro hbe hbu
    unfold scan_due_monitors
    rw [hfil, go_abort_update env now pre bad post 0 [] hpre hbe hbu]
    simp
  · intro env2 hok
    unfold scan_due_monitors
    rw [hfil, go_success env2 now (pre ++ bad :: post) 0 [] hok]
    simp

/-- Witness for C3: over the same due list [mA, mB, mC], a broker that raises
on mB's enqueue (`envC3`) aborts with only mA's effects, a store that raises
on mB's update (`envC3U`) aborts right after mB's enqueue, and a fault-free
sweep processes all three monitors. -/
theorem claim_C3_witness :
    (∀ m ∈ [mA, mB, mC], m.active = true ∧ DT.le m.next_run_at ⟨2023, 1, 2, 500⟩ = true) ∧
    (∀ m ∈ [mA], envC3.enqueueFails m.id = false ∧ envC3.updateFails m.id = false) ∧
    (∀ m ∈ [mA], envC3U.enqueueFails m.id = false ∧ envC3U.updateFails m.id = false) ∧
    (envC3.enqueueFails mB.id = true →
      scan_due_monitors envC3 ⟨2023, 1, 2, 500⟩ [mA, mB, mC] =
        (([mA].map (monitorEffs ⟨2023, 1, 2, 500⟩)).flatten, Except.error "enqueue failed")) ∧
    (envC3U.enqueueFails mB.id = false → envC3U.updateFails mB.id = true →
      scan_due_monitors envC3U ⟨2023, 1, 2, 500⟩ [mA, mB, mC] =
        (([mA].map (monitorEffs ⟨2023, 1, 2, 500⟩)).flatten ++ [SweepEff.enqueue mB.id],
         Except.error "update failed")) ∧
    (∀ env2 : SweepEnv,
      (∀ m ∈ [mA, mB, mC],
        env2.enqueueFails m.id = false ∧ env2.updateFails m.id = false) →
      scan_due_monitors env2 ⟨2023, 1, 2, 500⟩ [mA, mB, mC] =
        (([mA, mB, mC].map (monitorEffs ⟨2023, 1, 2, 500⟩)).flatten,
         Except.ok ([mA, mB, mC] : List MonitorRec).length)) :=
  ⟨by decide, by decide, by decide,
   (claim_C3 envC3 ⟨2023, 1, 2, 500⟩ [mA] mB [mC] (by decide) (by decide)).1,
   (claim_C3 envC3U ⟨2023, 1, 2, 500⟩ [mA] mB [mC] (by decide) (by decide)).2.1,
   (claim_C3 envC3 ⟨2023, 1, 2, 500⟩ [mA] mB [mC] (by decide) (by decide)).2.2⟩

/-- C4: the monitor-creation path enqueues
`scan_monitor_task.delay(monitor_id, monitor_data=task_payload)`
(src/main.py:109), but the handler is `def scan_monitor_task(self, monitor_id)`
(src/celery_tasks.py:140): the snapshot-carrying call does not bind (the
worker raises `TypeError: unexpected keyword argument`), while the bare
`delay(monitor_id)` calls of the test endpoint and of the scheduler do bind.
The repository's own integration test and the comment at src/main.py:106
expect the snapshot payload to be accepted, so this is a defect of the code,
not of the claim. -/
theorem claim_C4_bug :
    bindsOk scan_monitor_task_params 1 ["monitor_data"] = false ∧
    bindsOk scan_monitor_task_params 1 [] = true := by decide

/-- C5: every persisted reschedule write of the sweep is a partial update that
carries exactly the monitor identifier and one field, `next_run_at`, whose new
value is strictly greater than now. (No other monitor fields — `active`,
`query_text`, ... — appear in any update payload, whatever the fault model.) -/
theorem claim_C5 (env : SweepEnv) (now : DT) (table : List MonitorRec)
    (hn : DTValid now) (hv : ∀ m ∈ table, DTValid m.next_run_at) :
    ∀ mid payload, SweepEff.update mid payload ∈ (scan_due_monitors env now table).1 →
      ∃ v, payload = [("next_run_at", v)] ∧ DT.lt now v = true := by
  intro mid payload hmem
  unfold scan_due_monitors at hmem
  rcases go_effects_from env now _ 0 [] _ hmem with h | ⟨m, hm, he⟩
  · simp at h
  · have hmtab : m ∈ table := (List.mem_filter.mp hm).1
    have hvm := hv m hmtab
    simp only [monitorEffs, List.mem_cons, List.mem_singleton] at he
    rcases he with he | he | he
    · exact absurd he (by simp)
    · obtain ⟨-, hp⟩ := SweepEff.update.inj he
      exact ⟨scan_reschedule (freqOf m) m.next_run_at now, hp,
        (scan_reschedule_gt (freqOf m) hvm hn).2⟩
    · exact absurd he (by simp)

/-- Witness for C5: a two-monitor table (one with an unsupported cadence). -/
theorem claim_C5_witness :
    DTValid ⟨2023, 1, 2, 500⟩ ∧
    (∀ m ∈ [mA, mC], DTValid m.next_run_at) ∧
    (∀ mid payload,
      SweepEff.update mid payload ∈
        (scan_due_monitors envC3 ⟨2023, 1, 2, 500⟩ [mA, mC]).1 →
      ∃ v, payload = [("next_run_at", v)] ∧ DT.lt ⟨2023, 1, 2, 500⟩ v = true) :=
  ⟨by decide, by decide,
   claim_C5 envC3 ⟨2023, 1, 2, 500⟩ [mA, mC] (by decide) (by decide)⟩

/-- C6: in a fault-free sweep the effect log is exactly, per due monitor in
order, the enqueue of its ScanJob followed by the update whose `next_run_at`
value is the calculator applied to the monitor's *stored* `next_run_at` (see
`monitorEffs`) — not to wall-clock now; consequently, for every supported
cadence, the persisted value lies on the grid generated from the stored
`next_run_at` by iterating that cadence's step. -/
theorem claim_C6 (env : SweepEnv) (now : DT) (table : List MonitorRec)
    (hdue : ∀ m ∈ table, m.active = true ∧ DT.le m.next_run_at now = true)
    (hok : ∀ m ∈ table, env.enqueueFails m.id = false ∧ env.updateFails m.id = false) :
    (scan_due_monitors env now table).1 = (table.map (monitorEffs now)).flatten ∧
    ∀ m ∈ table, ∀ step, stepOf? (freqOf m) = some step →
      ∃ k, scan_reschedule (freqOf m) m.next_run_at now = iterStep step k m.next_run_at := by
  have hfil : table.filter (fun m => m.active && DT.le m.next_run_at now) = table :=
    List.filter_eq_self.mpr (fun m hm => by simp [(hdue m hm).1, (hdue m hm).2])
  constructor
  · unfold scan_due_monitors
    rw [hfil, go_success env now table 0 [] hok]
    simp
  · intro m _ step hstep
    unfold scan_reschedule calculate_next_run_at
    rw [hstep]
    exact catchupLoop_reach step now _ m.next_run_at

/-- Witness for C6: a fault-free sweep over `mA` (daily) and `mB` (weekly). -/
theorem claim_C6_witness :
    (∀ m ∈ [mA, mB], m.active = true ∧ DT.le m.next_run_at ⟨2023, 1, 2, 500⟩ = true) ∧
    (∀ m ∈ [mA, mB], envOk.enqueueFails m.id = false ∧ envOk.updateFails m.id = false) ∧
    ((scan_due_monitors envOk ⟨2023, 1, 2, 500⟩ [mA, mB]).1 =
      ([mA, mB].map (monitorEffs ⟨2023, 1, 2, 500⟩)).flatten ∧
    ∀ m ∈ [mA, mB], ∀ step, stepOf? (freqOf m) = some step →
      ∃ k, scan_reschedule (freqOf m) m.next_run_at ⟨2023, 1, 2, 500⟩ =
        iterStep step k m.next_run_at) :=
  ⟨by decide, by decide,
   claim_C6 envOk ⟨2023, 1, 2, 500⟩ [mA, mB] (by decide) (by decide)⟩

theorem score_foldl (P : String → Bool) :
    ∀ (l : List String) (acc : Nat),
      l.foldl (fun s kw => if P kw then s + 10 else s) acc =
        acc + 10 * (l.filter P).length := by
  intro l
  induction l with
  | nil => intro acc; simp
  | cons kw rest ih =>
    intro acc
    by_cases h : P kw <;> simp [h, ih] <;> omega

/-- C7 counterexample: duplicate matches of the same keyword do *not* each add
their increment. The item whose text is "attack attack" contains the keyword
"attack" twice; per the claim's formula (base 5 + 10 per substring match,
duplicates counted) its score would be 25 (see `spec_score`, built from the
spec's words), but `_calculate_score` gives 15: each keyword contributes at
most once, by presence. -/
theorem claim_C7_counterexample :
    _calculate_score ⟨"attack attack", ""⟩ = 15 ∧
    spec_score ⟨"attack attack", ""⟩ = 25 ∧
    countOccurrences "attack".toList (text_to_scan ⟨"attack attack", ""⟩) = 2 ∧
    _calculate_score ⟨"attack attack", ""⟩ ≠ spec_score ⟨"attack attack", ""⟩ := by
  decide

/-- C7 amended: each *distinct* keyword of the curated set that occurs
(case-insensitive substring) in title+snippet adds 10 to the base score 5,
regardless of how many times it occurs; an item with at least 2 matched
keywords scores strictly above an item with 0; the ranking sorts descending
by score and ties keep the original provider order (any two entries in
provider order with non-increasing scores stay in that order). -/
theorem claim_C7 :
    (∀ item : Item, _calculate_score item =
      5 + 10 * (keywords.filter (fun kw => containsSub kw.toList (text_to_scan item))).length) ∧
    ((∀ a b : Item,
      2 ≤ (keywords.filter (fun kw => containsSub kw.toList (text_to_scan a))).length →
      (keywords.filter (fun kw => containsSub kw.toList (text_to_scan b))).length = 0 →
      _calculate_score b < _calculate_score a) ∧
    (∀ items : List Item,
      (rank_items items).Pairwise (fun p q => q.2 ≤ p.2) ∧
      (rank_items items).Perm (items.map (fun it => (it, _calculate_score it))) ∧
      (∀ p q : Item × Nat,
        [p, q].Sublist (items.map (fun it => (it, _calculate_score it))) →
        q.2 ≤ p.2 → [p, q].Sublist (rank_items items)))) := by
  have htrans : ∀ (a b c : Item × Nat),
      (fun a b : Item × Nat => decide (b.2 ≤ a.2)) a b →
      (fun a b : Item × Nat => decide (b.2 ≤ a.2)) b c →
      (fun a b : Item × Nat => decide (b.2 ≤ a.2)) a c := by
    intro a b c h1 h2
    simp only [decide_eq_true_eq] at h1 h2 ⊢
    omega
  have htotal : ∀ (a b : Item × Nat),
      ((fun a b : Item × Nat => decide (b.2 ≤ a.2)) a b ||
       (fun a b : Item × Nat => decide (b.2 ≤ a.2)) b a) = true := by
    intro a b
    simp only [Bool.or_eq_true, decide_eq_true_eq]
    omega
  refine ⟨?_, ?_, ?_⟩
  · intro item
    unfold _calculate_score
    rw [score_foldl]
    omega
  · intro a b ha hb
    unfold _calculate_score
    rw [score_foldl, score_foldl]
    omega
  · intro items
    refine ⟨?_, List.mergeSort_perm _ _, ?_⟩
    · have := List.sorted_mergeSort htrans htotal
        (items.map (fun it => (it, _calculate_score it)))
      exact this.imp (fun h => by simpa using h)
    · intro p q hsub hle
      exact List.pair_sublist_mergeSort htrans htotal (by simpa using hle) hsub

/-- Witness for C7: `itemHi` matches two keywords (score 25), `itemLo` none
(score 5); in a two-item list the higher-scoring item is placed first. -/
theorem claim_C7_witness :
    2 ≤ (keywords.filter (fun kw => containsSub kw.toList (text_to_scan itemHi))).length ∧
    (keywords.filter (fun kw => containsSub kw.toList (text_to_scan itemLo))).length = 0 ∧
    _calculate_score itemLo < _calculate_score itemHi ∧
    [(itemHi, _calculate_score itemHi), (itemLo, _calculate_score itemLo)].Sublist
      (rank_items [itemHi, itemLo]) :=
  ⟨by decide, by decide,
   (claim_C7.2.1) itemHi itemLo (by decide) (by decide),
   ((claim_C7.2.2) [itemHi, itemLo]).2.2
     (itemHi, _calculate_score itemHi) (itemLo, _calculate_score itemLo)
     (by decide) (by decide)⟩

/-- C8: with the configuration guards passing, a monitor lookup returning no
record — or a monitor without query text — completes the job successfully
with the skip outcome (Python `None`) and enqueues no NotificationJob; a
successful report creation (insert response with a first row, on either the
with-item-count attempt or the base-schema fallback) enqueues exactly one
NotificationJob, referencing that row's report identifier. -/
theorem claim_C8 (env : ScanEnv)
    (hs : env.supabase_ok = true) (hc : env.cse_ok = true) :
    (env.monitor = none →
      scan_monitor_task env = ([], Except.ok ScanRet.skipped)) ∧
    (∀ m, env.monitor = some m → (m.query_text = none ∨ m.query_text = some "") →
      scan_monitor_task env = ([], Except.ok ScanRet.skipped)) ∧
    (∀ m q items row rest, env.monitor = some m → m.query_text = some q → q ≠ "" →
      env.search_items = Except.ok items → env.search_insert = Except.ok () →
      env.report_insert_with_count = Except.ok (row :: rest) →
      scan_monitor_task env = ([row.id], Except.ok (ScanRet.reportId row.id))) ∧
    (∀ m q items e row rest, env.monitor = some m → m.query_text = some q → q ≠ "" →
      env.search_items = Except.ok items → env.search_insert = Except.ok () →
      env.report_insert_with_count = Except.error e →
      env.report_insert_base = Except.ok (row :: rest) →
      scan_monitor_task env = ([row.id], Except.ok (ScanRet.reportId row.id))) := by
  refine ⟨?_, ?_, ?_, ?_⟩
  · intro hm
    simp [scan_monitor_task, hs, hc, hm]
  · intro m hm hq
    rcases hq with hq | hq <;> simp [scan_monitor_task, hs, hc, hm, hq]
  · intro m q items row rest hm hq hqne hsearch hins hrep
    simp [scan_monitor_task, hs, hc, hm, hq, hqne, hsearch, hins, hrep]
  · intro m q items e row rest hm hq hqne hsearch hins hrep hbase
    simp [scan_monitor_task, hs, hc, hm, hq, hqne, hsearch, hins, hrep, hbase]

/-- Witness for C8: a concrete environment on the successful path. -/
theorem claim_C8_witness :
    envScan.supabase_ok = true ∧ envScan.cse_ok = true ∧
    envScan.monitor = some mA ∧ mA.query_text = some "q" ∧ ("q" : String) ≠ "" ∧
    envScan.search_items = Except.ok [itemHi, itemLo] ∧
    envScan.search_insert = Except.ok () ∧
    envScan.report_insert_with_count = Except.ok [⟨some "r1"⟩] ∧
    scan_monitor_task envScan =
      ([some "r1"], Except.ok (ScanRet.reportId (some "r1"))) :=
  ⟨rfl, rfl, rfl, rfl, by decide, rfl, rfl, rfl,
   (claim_C8 envScan rfl rfl).2.2.1 mA "q" [itemHi, itemLo] ⟨some "r1"⟩ []
     rfl rfl (by decide) rfl rfl rfl⟩

theorem RateLimiter_call_store (limit window : Nat) (st : RLStore)
    (ip : String) (t : Nat) :
    (RateLimiter_call limit window true true st ip t).1 =
      ⟨(window_key ip t window, st.get (window_key ip t window) + 1) :: st.counters⟩ := by
  simp only [RateLimiter_call, RLStore.incr, Bool.not_true, Bool.false_eq_true, if_false]
  split_ifs <;> rfl

theorem RLStore_get_cons_self (st : RLStore) (key : String) (c : Nat) :
    RLStore.get ⟨(key, c) :: st.counters⟩ key = c := by
  simp [RLStore.get, List.lookup]

theorem run_checks_get (limit window : Nat) (ip : String) (t : Nat) :
    ∀ (n : Nat) (st : RLStore),
      (run_checks limit window ip t n st).get (window_key ip t window) =
        st.get (window_key ip t window) + n := by
  intro n
  induction n with
  | zero => intro st; simp [run_checks]
  | succ n ih =>
    intro st
    simp only [run_checks]
    rw [ih, RateLimiter_call_store, RLStore_get_cons_self]
    omega

/-- C9: the rate limiter admits exactly when the post-increment counter of the
caller's current window key is at most the configured limit: under limit N,
the request arriving with N prior same-window requests on an initially empty
store (the (N+1)th) is rejected with HTTP 429 while the first N were
admitted; a request whose window key has no counter yet (a fresh window) is
admitted again; and whenever the client is missing or the store pipeline
fails, the check admits (fail-open). -/
theorem claim_C9 (limit window : Nat) (st : RLStore) (ip : String) (t : Nat)
    (hlim : 1 ≤ limit) :
    (∀ e, RateLimiter_call limit window false e st ip t = (st, Except.ok ())) ∧
    (RateLimiter_call limit window true false st ip t = (st, Except.ok ())) ∧
    ((RateLimiter_call limit window true true st ip t).2 = Except.ok () ↔
      st.get (window_key ip t window) + 1 ≤ limit) ∧
    ((RateLimiter_call limit window true true st ip t).1.get (window_key ip t window) =
      st.get (window_key ip t window) + 1) ∧
    (∀ n, (RateLimiter_call limit window true true
        (run_checks limit window ip t n ⟨[]⟩) ip t).2 =
          (if n + 1 ≤ limit then Except.ok () else Except.error 429)) ∧
    (∀ t2, st.get (window_key ip t2 window) = 0 →
      (RateLimiter_call limit window true true st ip t2).2 = Except.ok ()) := by
  have hcall : ∀ (st2 : RLStore) (t2 : Nat),
      (RateLimiter_call limit window true true st2 ip t2).2 =
        (if limit < st2.get (window_key ip t2 window) + 1 then Except.error 429
         else Except.ok ()) := by
    intro st2 t2
    simp only [RateLimiter_call, RLStore.incr, Bool.not_true, Bool.false_eq_true, if_false]
    split_ifs <;> rfl
  refine ⟨fun e => rfl, rfl, ?_, ?_, ?_, ?_⟩
  · rw [hcall]
    split_ifs with h
    · simp
      omega
    · simp
      omega
  · rw [RateLimiter_call_store, RLStore_get_cons_self]
  · intro n
    rw [hcall, run_checks_get]
    have : RLStore.get ⟨[]⟩ (window_key ip t window) = 0 := by
      simp [RLStore.get, List.lookup]
    rw [this]
    split_ifs <;> first | rfl | omega
  · intro t2 hfresh
    rw [hcall, hfresh]
    split_ifs with h
    · omega
    · rfl

/-- Witness for C9 at limit 10, window 60: the 11th same-window request is
rejected, the first is admitted, a fresh window key admits. -/
theorem claim_C9_witness :
    (1 ≤ 10) ∧
    (RateLimiter_call 10 60 false true ⟨[]⟩ "1.2.3.4" 30 = (⟨[]⟩, Except.ok ())) ∧
    ((RateLimiter_call 10 60 true true
        (run_checks 10 60 "1.2.3.4" 30 10 ⟨[]⟩) "1.2.3.4" 30).2 =
      (if 10 + 1 ≤ 10 then Except.ok () else Except.error 429)) ∧
    ((run_checks 10 60 "1.2.3.4" 30 10 ⟨[]⟩).get (window_key "1.2.3.4" 90 60) = 0) ∧
    ((RateLimiter_call 10 60 true true
        (run_checks 10 60 "1.2.3.4" 30 10 ⟨[]⟩) "1.2.3.4" 90).2 = Except.ok ()) := by
  have h := claim_C9 10 60 (run_checks 10 60 "1.2.3.4" 30 10 ⟨[]⟩) "1.2.3.4" 30 (by omega)
  exact ⟨by omega, (claim_C9 10 60 ⟨[]⟩ "1.2.3.4" 30 (by omega)).1 true,
    h.2.2.2.2.1 10, by decide, h.2.2.2.2.2 90 (by decide)⟩

/-- C10: every rate-limited endpoint of src/main.py constructs its limiter as
`RateLimiter(requests=..., window=...)`, but `RateLimiter.__init__` declares
`limit` and `window`: the keyword `requests` binds against no parameter, so
each construction raises `TypeError` (and with the declared names it would
bind). -/
theorem claim_C10 :
    (∀ site ∈ rate_limiter_call_sites,
      bindsOk RateLimiter_init_params 0 site.2 = false) ∧
    bindsOk RateLimiter_init_params 0 ["limit", "window"] = true := by decide

/-- Witness for C10 at the `create_monitor` call site. -/
theorem claim_C10_witness :
    ("create_monitor", ["requests", "window"]) ∈ rate_limiter_call_sites ∧
    bindsOk RateLimiter_init_params 0 ["requests", "window"] = false :=
  ⟨by decide, claim_C10.1 ("create_monitor", ["requests", "window"]) (by decide)⟩
